import Mathlib

/-!
Shallow embedding of the track-container interaction logic of the eg-react
genome-browser UI: the `TrackContainer` handlers (`requestTrackReorder`,
`trackClicked`, `openContextMenu`, `closeContextMenu`, `deselectAllTracks`,
`toggleOneTrack`), the v1 container's `viewDragEnd`, and the
`G3dTrackConfig` fetch predicates; together with theorems checking the
specified behaviour.

Callbacks are modelled by `Option` results: `some a` means the callback was
invoked exactly once with argument `a`; `none` means it was not invoked.
JavaScript arrays are lists; reference identity of `DisplayedRegionModel`
objects is modelled by equality of opaque reference identifiers.
-/

namespace EgReact

/-- Modelled from the spec: `MouseButtons` (imported from `../util`) is not
among the provided sources; the spec speaks of the primary button of a mouse
click, so mouse buttons are an enumeration whose `left` constructor plays the
role of `MouseButtons.LEFT` (the primary button). -/
inductive MouseButton where
  | left
  | middle
  | right
deriving DecidableEq

/-- The parts of a DOM `MouseEvent` that the handlers inspect: which button
fired and whether the modifier (ctrl) key was held. -/
structure MouseEvt where
  button : MouseButton
  ctrlKey : Bool
deriving DecidableEq

/-- Modelled from the spec: `TrackModel` (imported from `../model/TrackModel`)
is not among the provided sources. The spec describes it as a record with a
type discriminator, a data origin, and an `isSelected` flag, supporting
cloning for copy-on-write updates. -/
structure TrackModel where
  typeName : String
  url : String
  isSelected : Bool
deriving DecidableEq

/-- Modelled from the spec: `TrackModel.clone` produces a fresh object with
the same field values. -/
def TrackModel.clone (t : TrackModel) : TrackModel :=
  { typeName := t.typeName, url := t.url, isSelected := t.isSelected }

/-- Marks whether an output array element is the very same object reference as
an input element (`same`) or a freshly cloned object (`cloned`). -/
inductive ObjRef (α : Type) where
  | same (t : α)
  | cloned (t : α)
deriving DecidableEq

/-- The value carried by an `ObjRef`, forgetting object identity. -/
def ObjRef.val {α : Type} : ObjRef α → α
  | .same t => t
  | .cloned t => t

/-- `TrackContainer.deselectAllTracks`: maps over `props.tracks`; a selected
track is replaced by a clone with `isSelected` set to `false`, an unselected
track is returned as the same object. The `ObjRef` wrapper records which
branch produced each element (clone versus same reference). -/
def deselectAllTracksR (tracks : List TrackModel) : List (ObjRef TrackModel) :=
  tracks.map fun track =>
    if track.isSelected then
      ObjRef.cloned { track.clone with isSelected := false }
    else
      ObjRef.same track

/-- The value-level result of `deselectAllTracks`, forgetting object
identity. -/
def deselectAllTracks (tracks : List TrackModel) : List TrackModel :=
  (deselectAllTracksR tracks).map ObjRef.val

/-- `TrackContainer.toggleOneTrack`: replaces `tracks[index]` by a clone whose
selection flag is negated (`tracks[index] = tracks[index].clone();
tracks[index].isSelected = !tracks[index].isSelected`). For an out-of-range
index (where the JS code would throw on `undefined.clone()`, behaviour the
spec leaves undefined) the list is returned unchanged; all theorems use
in-range indices only. -/
def toggleOneTrack (tracks : List TrackModel) (index : Nat) : List TrackModel :=
  match tracks[index]? with
  | some t => tracks.set index { t.clone with isSelected := !t.isSelected }
  | none => tracks

/-- `TrackContainer.trackClicked`: on a primary-button click with the ctrl key
held, emits (via `onTracksChanged`) a copy of the tracks with the clicked
track's selection toggled; otherwise no state change and no callback. -/
def trackClicked (tracks : List TrackModel) (event : MouseEvt) (index : Nat) :
    Option (List TrackModel) :=
  if event.button == MouseButton.left && event.ctrlKey then
    some (toggleOneTrack tracks index)
  else
    none

/-- Result of a context-menu handler: the new `contextMenuEvent` state and the
array emitted through `onTracksChanged`, if any. -/
structure MenuStep where
  contextMenuEvent : Option MouseEvt
  emitted : Option (List TrackModel)
deriving DecidableEq

/-- `TrackContainer.openContextMenu`: a primary-button event delegates to
`trackClicked`; an event with ctrl held does nothing; otherwise the event is
recorded for menu positioning and, if the clicked track is not selected, all
tracks are deselected, the clicked one is toggled (hence selected), and the
array is emitted. -/
def openContextMenu (tracks : List TrackModel) (prevMenu : Option MouseEvt)
    (event : MouseEvt) (index : Nat) : MenuStep :=
  if event.button == MouseButton.left then
    { contextMenuEvent := prevMenu, emitted := trackClicked tracks event index }
  else if event.ctrlKey then
    { contextMenuEvent := prevMenu, emitted := none }
  else
    { contextMenuEvent := some event,
      emitted :=
        match tracks[index]? with
        | some t =>
          if !t.isSelected then
            some (toggleOneTrack (deselectAllTracks tracks) index)
          else
            none
        | none => none }

/-- `TrackContainer.closeContextMenu`, with `insideTrackDiv` standing for
`this.trackDiv.contains(event.target)`. A click inside the track div with
ctrl held is ignored (menu stays open); otherwise the menu state is cleared
and, if the click was outside the track div, the deselected array is
emitted. -/
def closeContextMenu (tracks : List TrackModel) (prevMenu : Option MouseEvt)
    (insideTrackDiv : Bool) (ctrlKey : Bool) : MenuStep :=
  if insideTrackDiv && ctrlKey then
    { contextMenuEvent := prevMenu, emitted := none }
  else
    { contextMenuEvent := none,
      emitted := if !insideTrackDiv then some (deselectAllTracks tracks) else none }

/-- `TrackContainer.requestTrackReorder` (identical to `trackMoved` in the v1
container): copies the tracks, removes the element at `fromIndex`, reinserts
it at `toIndex`, and emits the result. For an out-of-range `fromIndex`
(behaviour the spec leaves undefined) the list is returned unchanged; all
theorems use in-range indices only. -/
def requestTrackReorder (tracks : List TrackModel) (fromIndex toIndex : Nat) :
    List TrackModel :=
  match tracks[fromIndex]? with
  | some moved => (tracks.eraseIdx fromIndex).insertIdx toIndex moved
  | none => tracks

/-- v1 `TrackContainer.MIN_DRAG_DISTANCE_FOR_REFRESH`. -/
def MIN_DRAG_DISTANCE_FOR_REFRESH : Int := 20

/-- v1 `TrackContainer.viewDragEnd`: invokes `newRegionCallback(newStart,
newEnd)` exactly when the net horizontal displacement `coordinateDiff.dx`
satisfies `Math.abs(dx) >= MIN_DRAG_DISTANCE_FOR_REFRESH`. -/
def viewDragEnd (newStart newEnd : Int) (dx : Int) : Option (Int × Int) :=
  if MIN_DRAG_DISTANCE_FOR_REFRESH ≤ |dx| then
    some (newStart, newEnd)
  else
    none

/-- Modelled from the spec: `RegionMode` (imported from `model/G3dDataModes`)
is not among the provided sources; the spec names whole-genome and
whole-chromosome aggregate display modes alongside an ordinary region mode.
Only distinctness of the constructors matters to the predicates. -/
inductive RegionMode where
  | GENOME
  | CHROMOSOME
  | REGION
deriving DecidableEq

/-- A value stored in a track's options map. -/
inductive OptValue where
  | mode (m : RegionMode)
  | num (n : Int)
  | str (s : String)
deriving DecidableEq

/-- Modelled from the spec: `TrackOptions` (imported from
`model/TrackModel`) is a map of option-name to value; modelled as an
association list. -/
abbrev TrackOptions := List (String × OptValue)

/-- Property access `options.key` on an options map (`none` plays the role of
`undefined` for an absent key). -/
def optGet (options : TrackOptions) (key : String) : Option OptValue :=
  List.lookup key options

/-- Opaque reference identity of a `DisplayedRegionModel`: `===`/`!==` on the
object references is equality/inequality of identifiers. -/
abbrev RegionRef := Nat

/-- `G3dTrackConfig.shouldFetchBecauseOptionChange`. -/
def shouldFetchBecauseOptionChange (oldOptions newOptions : TrackOptions) : Bool :=
  optGet oldOptions "region" != optGet newOptions "region"
    || optGet oldOptions "resolution" != optGet newOptions "resolution"

/-- `G3dTrackConfig.shouldFetchBecauseRegionChange`. -/
def shouldFetchBecauseRegionChange (currentOptions : TrackOptions)
    (oldRegion newRegion : RegionRef) : Bool :=
  if optGet currentOptions "region" == some (OptValue.mode RegionMode.GENOME)
      || optGet currentOptions "region" == some (OptValue.mode RegionMode.CHROMOSOME) then
    false
  else
    oldRegion != newRegion

/-- Sample tracks used by the concrete witnesses. -/
def trackA : TrackModel := { typeName := "bed", url := "a", isSelected := false }

def trackB : TrackModel := { typeName := "bigWig", url := "b", isSelected := true }

def trackC : TrackModel := { typeName := "g3d", url := "c", isSelected := false }

def demoTracks : List TrackModel := [trackA, trackB, trackC]

/-- A list is a permutation of its element at `i` consed onto the list with
index `i` erased. -/
theorem perm_get_cons_eraseIdx {α : Type} :
    ∀ (l : List α) (i : Nat) (h : i < l.length), l.Perm (l[i] :: l.eraseIdx i)
  | _ :: _, 0, _ => List.Perm.refl _
  | a :: l, i + 1, h => by
    have ih := perm_get_cons_eraseIdx l i (Nat.lt_of_succ_lt_succ (by simpa using h))
    simp only [List.eraseIdx_cons_succ, List.getElem_cons_succ]
    exact (ih.cons a).trans (List.Perm.swap _ _ _)

/-- Erasing index `i` and reinserting the erased element at `i` restores the
list. -/
theorem insertIdx_get_eraseIdx {α : Type} :
    ∀ (l : List α) (i : Nat) (h : i < l.length), (l.eraseIdx i).insertIdx i l[i] = l
  | _ :: _, 0, _ => rfl
  | a :: l, i + 1, h => by
    have ih := insertIdx_get_eraseIdx l i (Nat.lt_of_succ_lt_succ (by simpa using h))
    simp only [List.eraseIdx_cons_succ, List.getElem_cons_succ, List.insertIdx_succ_cons, ih]

/-- Optional lookup at the insertion index returns the inserted element. -/
theorem getElem?_insertIdx_self {α : Type} (l : List α) (x : α) (n : Nat)
    (hn : n ≤ l.length) : (l.insertIdx n x)[n]? = some x := by
  rw [List.getElem?_eq_getElem (by rw [List.length_insertIdx _ _ hn]; omega),
    List.getElem_insertIdx_self l x n hn]

/-- Setting an index to the value it already holds is the identity. -/
theorem set_get_self {α : Type} (l : List α) (i : Nat) (h : i < l.length) :
    l.set i l[i] = l := by
  apply List.ext_getElem?
  intro j
  by_cases hj : j = i
  · subst hj
    rw [List.getElem?_set_self h, List.getElem?_eq_getElem h]
  · rw [List.getElem?_set_ne (Ne.symm hj)]

/-- `deselectAllTracks` is a plain map over the tracks. -/
theorem deselectAllTracks_eq_map (tracks : List TrackModel) :
    deselectAllTracks tracks = tracks.map fun t =>
      if t.isSelected then { t with isSelected := false } else t := by
  simp only [deselectAllTracks, deselectAllTracksR, List.map_map]
  congr 1
  funext t
  by_cases h : t.isSelected <;> simp [h, ObjRef.val, Function.comp, TrackModel.clone]

/-- Pointwise description of `deselectAllTracks`. -/
theorem deselectAllTracks_getElem? (tracks : List TrackModel) (j : Nat) :
    (deselectAllTracks tracks)[j]? =
      (tracks[j]?).map fun t => if t.isSelected then { t with isSelected := false } else t := by
  rw [deselectAllTracks_eq_map, List.getElem?_map]

/-- `deselectAllTracks` preserves length. -/
theorem deselectAllTracks_length (tracks : List TrackModel) :
    (deselectAllTracks tracks).length = tracks.length := by
  rw [deselectAllTracks_eq_map, List.length_map]

/-- Unfolding `toggleOneTrack` at an in-range index. -/
theorem toggleOneTrack_eq_set (tracks : List TrackModel) (index : Nat)
    (hi : index < tracks.length) :
    toggleOneTrack tracks index =
      tracks.set index
        { (tracks[index]).clone with isSelected := !(tracks[index]).isSelected } := by
  unfold toggleOneTrack
  rw [List.getElem?_eq_getElem hi]

/-- `toggleOneTrack` negates the selection of the target element. -/
theorem toggleOneTrack_getElem?_self (tracks : List TrackModel) (index : Nat)
    (hi : index < tracks.length) :
    (toggleOneTrack tracks index)[index]? =
      (tracks[index]?).map fun t => { t with isSelected := !t.isSelected } := by
  rw [toggleOneTrack_eq_set tracks index hi, List.getElem?_set_self hi,
    List.getElem?_eq_getElem hi]
  rfl

/-- `toggleOneTrack` leaves all other elements untouched. -/
theorem toggleOneTrack_getElem?_ne (tracks : List TrackModel) (index j : Nat)
    (hj : j ≠ index) : (toggleOneTrack tracks index)[j]? = tracks[j]? := by
  unfold toggleOneTrack
  cases h : tracks[index]? with
  | none => rfl
  | some t => exact List.getElem?_set_ne (Ne.symm hj)

/-- Toggling the same in-range index twice restores the list. -/
theorem toggleOneTrack_toggleOneTrack (tracks : List TrackModel) (index : Nat)
    (hi : index < tracks.length) :
    toggleOneTrack (toggleOneTrack tracks index) index = tracks := by
  have h1 := toggleOneTrack_eq_set tracks index hi
  have hlen : index < (toggleOneTrack tracks index).length := by
    rw [h1, List.length_set]
    exact hi
  rw [toggleOneTrack_eq_set _ index hlen]
  have hval : (toggleOneTrack tracks index)[index] =
      { (tracks[index]).clone with isSelected := !(tracks[index]).isSelected } := by
    have := toggleOneTrack_getElem?_self tracks index hi
    rw [List.getElem?_eq_getElem hlen, List.getElem?_eq_getElem hi] at this
    simpa [TrackModel.clone] using this
  rw [hval, h1, List.set_set]
  have : ({ ({ (tracks[index]).clone with isSelected := !(tracks[index]).isSelected
      } : TrackModel).clone with
      isSelected := !({ (tracks[index]).clone with
        isSelected := !(tracks[index]).isSelected } : TrackModel).isSelected } : TrackModel)
      = tracks[index] := by
    simp [TrackModel.clone]
  rw [this, set_get_self tracks index hi]

/-- Unfolding `requestTrackReorder` at an in-range `fromIndex`. -/
theorem requestTrackReorder_eq (tracks : List TrackModel) (fromIndex toIndex : Nat)
    (hf : fromIndex < tracks.length) :
    requestTrackReorder tracks fromIndex toIndex =
      (tracks.eraseIdx fromIndex).insertIdx toIndex tracks[fromIndex] := by
  unfold requestTrackReorder
  rw [List.getElem?_eq_getElem hf]

/-- C1: for every tracks array and in-range indices `fromIndex ≠ toIndex`,
`requestTrackReorder` emits a permutation of the input (every element kept
exactly once), with the moved track at `toIndex` and the relative order of
all other tracks preserved (erasing the moved track from the output yields
the input minus the moved track); the input list itself is unchanged, the
handler operating on a copy. -/
theorem requestTrackReorder_correct (tracks : List TrackModel) (fromIndex toIndex : Nat)
    (hf : fromIndex < tracks.length) (ht : toIndex < tracks.length)
    (hne : fromIndex ≠ toIndex) :
    (requestTrackReorder tracks fromIndex toIndex).Perm tracks ∧
    (requestTrackReorder tracks fromIndex toIndex)[toIndex]? = tracks[fromIndex]? ∧
    (requestTrackReorder tracks fromIndex toIndex).eraseIdx toIndex
      = tracks.eraseIdx fromIndex := by
  have hre := requestTrackReorder_eq tracks fromIndex toIndex hf
  have hlen : toIndex ≤ (tracks.eraseIdx fromIndex).length := by
    rw [List.length_eraseIdx_of_lt hf]
    omega
  refine ⟨?_, ?_, ?_⟩
  · rw [hre]
    exact (List.perm_insertIdx _ _ hlen).trans (perm_get_cons_eraseIdx tracks fromIndex hf).symm
  · rw [hre, getElem?_insertIdx_self _ _ _ hlen, List.getElem?_eq_getElem hf]
  · rw [hre, List.eraseIdx_insertIdx]

/-- C1 witness: a concrete reorder on three tracks. -/
theorem requestTrackReorder_correct_witness :
    (requestTrackReorder demoTracks 0 2).Perm demoTracks ∧
    (requestTrackReorder demoTracks 0 2)[2]? = demoTracks[0]? ∧
    (requestTrackReorder demoTracks 0 2).eraseIdx 2 = demoTracks.eraseIdx 0 :=
  requestTrackReorder_correct demoTracks 0 2 (by decide) (by decide) (by decide)

/-- C9: reordering a track onto its own index emits a list identical to the
input (remove-then-reinsert at the same index is the identity). -/
theorem requestTrackReorder_same_index (tracks : List TrackModel) (i : Nat)
    (hi : i < tracks.length) : requestTrackReorder tracks i i = tracks := by
  rw [requestTrackReorder_eq tracks i i hi, insertIdx_get_eraseIdx tracks i hi]

/-- C9 witness: a concrete same-index reorder. -/
theorem requestTrackReorder_same_index_witness :
    requestTrackReorder demoTracks 1 1 = demoTracks :=
  requestTrackReorder_same_index demoTracks 1 (by decide)

/-- C8: toggling the selection of the same in-range track twice restores its
original `isSelected` value and leaves every other track as it was. -/
theorem toggleOneTrack_double_toggle (tracks : List TrackModel) (index : Nat)
    (hi : index < tracks.length) :
    ((toggleOneTrack (toggleOneTrack tracks index) index)[index]?).map TrackModel.isSelected
      = (tracks[index]?).map TrackModel.isSelected ∧
    ∀ j, j ≠ index →
      (toggleOneTrack (toggleOneTrack tracks index) index)[j]? = tracks[j]? := by
  rw [toggleOneTrack_toggleOneTrack tracks index hi]
  exact ⟨rfl, fun j _ => rfl⟩

/-- C8 witness: a concrete double toggle. -/
theorem toggleOneTrack_double_toggle_witness :
    ((toggleOneTrack (toggleOneTrack demoTracks 1) 1)[1]?).map TrackModel.isSelected
      = (demoTracks[1]?).map TrackModel.isSelected ∧
    ∀ j, j ≠ 1 → (toggleOneTrack (toggleOneTrack demoTracks 1) 1)[j]? = demoTracks[j]? :=
  toggleOneTrack_double_toggle demoTracks 1 (by decide)

/-- C2: a primary-button click with ctrl held emits an array whose clicked
element is a clone with `isSelected` negated, every other element unchanged;
without ctrl or with a non-primary button no callback is invoked. -/
theorem trackClicked_spec (tracks : List TrackModel) (event : MouseEvt) (index : Nat)
    (hi : index < tracks.length) :
    (event.button = MouseButton.left → event.ctrlKey = true →
      ∃ out, trackClicked tracks event index = some out ∧
        out[index]? = (tracks[index]?).map (fun t => { t with isSelected := !t.isSelected }) ∧
        ∀ j, j ≠ index → out[j]? = tracks[j]?) ∧
    (event.ctrlKey = false ∨ event.button ≠ MouseButton.left →
      trackClicked tracks event index = none) := by
  constructor
  · intro hb hc
    refine ⟨toggleOneTrack tracks index, ?_, ?_, ?_⟩
    · simp [trackClicked, hb, hc]
    · have := toggleOneTrack_getElem?_self tracks index hi
      simpa [TrackModel.clone] using this
    · intro j hj
      exact toggleOneTrack_getElem?_ne tracks index j hj
  · intro h
    rcases h with hc | hb
    · simp [trackClicked, hc]
    · simp [trackClicked, hb]

/-- C2 witness: a concrete ctrl-click on the middle track. -/
theorem trackClicked_spec_witness :
    ∃ out, trackClicked demoTracks { button := MouseButton.left, ctrlKey := true } 1
        = some out ∧
      out[1]? = (demoTracks[1]?).map (fun t => { t with isSelected := !t.isSelected }) ∧
      ∀ j, j ≠ 1 → out[j]? = demoTracks[j]? :=
  (trackClicked_spec demoTracks { button := MouseButton.left, ctrlKey := true } 1
    (by decide)).1 rfl rfl

/-- C3: a non-primary-button event with no modifier on an unselected track
emits an array in which the target is selected and every other track is
deselected; on an already-selected track nothing is emitted. -/
theorem openContextMenu_spec (tracks : List TrackModel) (prevMenu : Option MouseEvt)
    (event : MouseEvt) (index : Nat)
    (hb : event.button ≠ MouseButton.left) (hc : event.ctrlKey = false) :
    (∀ t, tracks[index]? = some t → t.isSelected = false →
      ∃ out, (openContextMenu tracks prevMenu event index).emitted = some out ∧
        out[index]? = some { t with isSelected := true } ∧
        ∀ j, j ≠ index →
          (out[j]?).map TrackModel.isSelected = (tracks[j]?).map fun _ => false) ∧
    (∀ t, tracks[index]? = some t → t.isSelected = true →
      (openContextMenu tracks prevMenu event index).emitted = none) := by
  have hbeq : (event.button == MouseButton.left) = false := by
    simpa using hb
  constructor
  · intro t ht hsel
    have hi : index < tracks.length := by
      by_contra hlt
      push_neg at hlt
      rw [List.getElem?_eq_none hlt] at ht
      exact Option.noConfusion ht
    have hdi : index < (deselectAllTracks tracks).length := by
      rw [deselectAllTracks_length]
      exact hi
    refine ⟨toggleOneTrack (deselectAllTracks tracks) index, ?_, ?_, ?_⟩
    · simp [openContextMenu, hbeq, hc, ht, hsel]
    · rw [toggleOneTrack_getElem?_self _ index hdi, deselectAllTracks_getElem?, ht]
      simp [hsel]
    · intro j hj
      rw [toggleOneTrack_getElem?_ne _ index j hj, deselectAllTracks_getElem?,
        Option.map_map]
      cases hu : tracks[j]? with
      | none => rfl
      | some u =>
        by_cases hs : u.isSelected <;> simp [hs, Function.comp]
  · intro t ht hsel
    simp [openContextMenu, hbeq, hc, ht, hsel]

/-- C3 witness: a concrete right-click on the unselected third track while
the second is selected. -/
theorem openContextMenu_spec_witness :
    ∃ out, (openContextMenu demoTracks none
        { button := MouseButton.right, ctrlKey := false } 2).emitted = some out ∧
      out[2]? = some { trackC with isSelected := true } ∧
      ∀ j, j ≠ 2 →
        (out[j]?).map TrackModel.isSelected = (demoTracks[j]?).map fun _ => false :=
  (openContextMenu_spec demoTracks none
    { button := MouseButton.right, ctrlKey := false } 2 (by decide) rfl).1
    trackC (by decide) rfl

/-- C4 counterexample: `closeContextMenu` on a click outside the track area
with the modifier key held still emits the deselected array, although the
claim's "if and only if ... the modifier key was not held" predicts no
callback at this input. -/
theorem closeContextMenu_counterexample :
    ¬ ((closeContextMenu [trackB] none false true).emitted = none) ∧
    (closeContextMenu [trackB] none false true).emitted
      = some [{ trackB with isSelected := false }] := by
  decide

/-- C4 (amended): `closeContextMenu` emits the deselected array exactly when
the event target lies outside the track area, regardless of the modifier key;
the menu stays open (state unchanged, no callback) exactly when the target is
inside the track area with the modifier held; in every other case the menu is
closed (`contextMenuEvent` set to `null`). -/
theorem closeContextMenu_spec (tracks : List TrackModel) (prevMenu : Option MouseEvt)
    (insideTrackDiv ctrlKey : Bool) :
    (closeContextMenu tracks prevMenu insideTrackDiv ctrlKey).emitted
      = (if insideTrackDiv then none else some (deselectAllTracks tracks)) ∧
    (closeContextMenu tracks prevMenu insideTrackDiv ctrlKey).contextMenuEvent
      = (if insideTrackDiv && ctrlKey then prevMenu else none) := by
  cases insideTrackDiv <;> cases ctrlKey <;> simp [closeContextMenu]

/-- C5: the completion callback fires (exactly once, with the new bounds) when
the net horizontal displacement is at least the 20-pixel threshold, and never
fires below it. -/
theorem viewDragEnd_spec (newStart newEnd dx : Int) :
    MIN_DRAG_DISTANCE_FOR_REFRESH = 20 ∧
    (MIN_DRAG_DISTANCE_FOR_REFRESH ≤ |dx| →
      viewDragEnd newStart newEnd dx = some (newStart, newEnd)) ∧
    (|dx| < MIN_DRAG_DISTANCE_FOR_REFRESH →
      viewDragEnd newStart newEnd dx = none) := by
  refine ⟨rfl, ?_, ?_⟩
  · intro h
    simp [viewDragEnd, h]
  · intro h
    simp [viewDragEnd, not_le.mpr h]

/-- C5 witness: a 25-pixel drag fires the callback; a 19-pixel drag (leftward)
does not. -/
theorem viewDragEnd_spec_witness :
    viewDragEnd 100 200 25 = some (100, 200) ∧ viewDragEnd 100 200 (-19) = none :=
  ⟨(viewDragEnd_spec 100 200 25).2.1 (by decide),
   (viewDragEnd_spec 100 200 (-19)).2.2 (by decide)⟩

/-- C6: `shouldFetchBecauseRegionChange` returns `false` whenever the track's
region option is the whole-genome mode, regardless of the regions; with no
region mode set it returns `true` exactly when the two region references
differ. -/
theorem shouldFetchBecauseRegionChange_spec (currentOptions : TrackOptions)
    (oldRegion newRegion : RegionRef) :
    (optGet currentOptions "region" = some (OptValue.mode RegionMode.GENOME) →
      shouldFetchBecauseRegionChange currentOptions oldRegion newRegion = false) ∧
    (optGet currentOptions "region" = none →
      (shouldFetchBecauseRegionChange currentOptions oldRegion newRegion = true
        ↔ oldRegion ≠ newRegion)) := by
  constructor
  · intro h
    simp [shouldFetchBecauseRegionChange, h]
  · intro h
    simp [shouldFetchBecauseRegionChange, h, bne_iff_ne]

/-- C6 witness: whole-genome mode suppresses the refetch even across distinct
region references; with no mode set, distinct references force it. -/
theorem shouldFetchBecauseRegionChange_spec_witness :
    shouldFetchBecauseRegionChange [("region", OptValue.mode RegionMode.GENOME)] 0 1
      = false ∧
    (shouldFetchBecauseRegionChange [] 0 1 = true ↔ (0 : RegionRef) ≠ 1) :=
  ⟨(shouldFetchBecauseRegionChange_spec [("region", OptValue.mode RegionMode.GENOME)] 0 1).1
      rfl,
   (shouldFetchBecauseRegionChange_spec [] 0 1).2 rfl⟩

/-- C7: `shouldFetchBecauseOptionChange` is `true` exactly when the `region`
or `resolution` option differs; when both agree any change confined to other
option keys yields `false`. -/
theorem shouldFetchBecauseOptionChange_spec (oldOptions newOptions : TrackOptions) :
    (shouldFetchBecauseOptionChange oldOptions newOptions = true ↔
      (optGet oldOptions "region" ≠ optGet newOptions "region" ∨
        optGet oldOptions "resolution" ≠ optGet newOptions "resolution")) ∧
    (optGet oldOptions "region" = optGet newOptions "region" →
      optGet oldOptions "resolution" = optGet newOptions "resolution" →
      shouldFetchBecauseOptionChange oldOptions newOptions = false) := by
  constructor
  · simp [shouldFetchBecauseOptionChange, bne_iff_ne]
  · intro h1 h2
    simp [shouldFetchBecauseOptionChange, h1, h2]

/-- C7 witness: two option maps differing only in a color preference do not
trigger a refetch. -/
theorem shouldFetchBecauseOptionChange_spec_witness :
    shouldFetchBecauseOptionChange
        [("region", OptValue.mode RegionMode.REGION), ("color", OptValue.str "blue")]
        [("region", OptValue.mode RegionMode.REGION), ("color", OptValue.str "red")]
      = false :=
  (shouldFetchBecauseOptionChange_spec
    [("region", OptValue.mode RegionMode.REGION), ("color", OptValue.str "blue")]
    [("region", OptValue.mode RegionMode.REGION), ("color", OptValue.str "red")]).2
    (by decide) (by decide)

/-- C10: `deselectAllTracks` builds a new array without touching the input:
each selected track is replaced by a fresh clone with `isSelected` `false`
(`cloned`), and each already-deselected track is returned as the very same
object reference (`same`); the length is preserved. -/
theorem deselectAllTracksR_spec (tracks : List TrackModel) :
    (deselectAllTracksR tracks).length = tracks.length ∧
    ∀ (j : Nat) (t : TrackModel), tracks[j]? = some t →
      ((t.isSelected = true →
        (deselectAllTracksR tracks)[j]?
          = some (ObjRef.cloned { t with isSelected := false })) ∧
       (t.isSelected = false →
        (deselectAllTracksR tracks)[j]? = some (ObjRef.same t))) := by
  refine ⟨List.length_map _ _, ?_⟩
  intro j t ht
  constructor
  · intro hsel
    simp only [deselectAllTracksR]
    rw [List.getElem?_map, ht]
    simp [hsel, TrackModel.clone]
  · intro hsel
    simp only [deselectAllTracksR]
    rw [List.getElem?_map, ht]
    simp [hsel]

/-- C10 witness: the selected middle track is cloned-and-deselected, the
unselected first track is returned as the same object. -/
theorem deselectAllTracksR_spec_witness :
    (deselectAllTracksR demoTracks)[1]?
      = some (ObjRef.cloned { trackB with isSelected := false }) ∧
    (deselectAllTracksR demoTracks)[0]? = some (ObjRef.same trackA) :=
  ⟨((deselectAllTracksR_spec demoTracks).2 1 trackB rfl).1 rfl,
   ((deselectAllTracksR_spec demoTracks).2 0 trackA rfl).2 rfl⟩

end EgReact
